import Mathlib

/-!
Verification of the superdense-coding notebook
(`2_quantum_information/superdense_coding.ipynb`).

The notebook builds one 2-qubit / 2-classical-bit circuit:
entangle (`h(q[0]); cx(q[0], q[1])`), encode a 2-bit message on `q[0]`
(for message 11 the live code runs `z(q[0]); x(q[0])`; the other three
branches are given in the same cell as comments: nothing for 00, `x` for
01, `z` for 10), then decode and measure
(`cx(q[0], q[1]); h(q[0]); measure(q[0], c[0]); measure(q[1], c[1])`),
and finally executes the circuit with a shot count.

We embed the circuit's exact state-vector semantics.  Every gate in the
notebook (H, X, Z, CX) has matrix entries in ℚ(√2), so amplitudes are
represented exactly as pairs `a + b·√2` of rationals (`Q2` below) and the
two-qubit state is a function from the four computational basis vectors,
written as pairs `(value of q[0], value of q[1])`, to amplitudes.
Measurement of the final state in the computational basis follows the
Born rule: the probability of a classical outcome is the sum of squared
amplitudes of the basis states that read out to it.

Bit-ordering convention (the spec leaves it open and asks that it be
fixed and documented): a 2-bit string "b₀b₁" — a message or a measured
outcome — is the pair `(b₀, b₁)` where the character at index 0 is
classical bit `c[0]` and the character at index 1 is `c[1]`.
-/

/-- An element `re + rt·√2` of the ring ℚ(√2).  All amplitudes arising
from the notebook's gates (H, X, Z, CX) lie in this ring, so circuit
states are represented exactly. -/
structure Q2 where
  re : ℚ
  rt : ℚ
deriving DecidableEq, Repr

namespace Q2

instance : Add Q2 := ⟨fun x y => ⟨x.re + y.re, x.rt + y.rt⟩⟩
instance : Mul Q2 := ⟨fun x y => ⟨x.re * y.re + 2 * x.rt * y.rt, x.re * y.rt + x.rt * y.re⟩⟩
instance : Neg Q2 := ⟨fun x => ⟨-x.re, -x.rt⟩⟩
instance : Zero Q2 := ⟨⟨0, 0⟩⟩
instance : One Q2 := ⟨⟨1, 0⟩⟩
instance : NatCast Q2 := ⟨fun n => ⟨(n : ℚ), 0⟩⟩

@[simp] theorem add_re (x y : Q2) : (x + y).re = x.re + y.re := rfl

@[simp] theorem add_rt (x y : Q2) : (x + y).rt = x.rt + y.rt := rfl

@[simp] theorem mul_re (x y : Q2) : (x * y).re = x.re * y.re + 2 * x.rt * y.rt := rfl

@[simp] theorem mul_rt (x y : Q2) : (x * y).rt = x.re * y.rt + x.rt * y.re := rfl

@[simp] theorem neg_re (x : Q2) : (-x).re = -x.re := rfl

@[simp] theorem neg_rt (x : Q2) : (-x).rt = -x.rt := rfl

@[simp] theorem zero_re : (0 : Q2).re = 0 := rfl

@[simp] theorem zero_rt : (0 : Q2).rt = 0 := rfl

@[simp] theorem one_re : (1 : Q2).re = 1 := rfl

@[simp] theorem one_rt : (1 : Q2).rt = 0 := rfl

@[simp] theorem natCast_re (n : ℕ) : (n : Q2).re = (n : ℚ) := rfl

@[simp] theorem natCast_rt (n : ℕ) : (n : Q2).rt = 0 := rfl

theorem eq_iff {x y : Q2} : x = y ↔ x.re = y.re ∧ x.rt = y.rt := by
  cases x; cases y; simp [mk.injEq]

end Q2

/-- The amplitude `1/√2 = √2/2`, the matrix entry of the Hadamard gate. -/
def invSqrt2 : Q2 := ⟨0, 1/2⟩

/-- A state of the notebook's 2-qubit register `q`: an amplitude for each
computational basis vector, a basis vector being the pair
`(value of q[0], value of q[1])`. -/
def QState := Bool × Bool → Q2

/-- The value of qubit `q` in a basis vector. -/
def bitOf (q : Fin 2) (s : Bool × Bool) : Bool := if q = 0 then s.1 else s.2

/-- Replace the value of qubit `q` in a basis vector. -/
def setBit (q : Fin 2) (b : Bool) (s : Bool × Bool) : Bool × Bool :=
  if q = 0 then (b, s.2) else (s.1, b)

/-- The Hadamard matrix `(1/√2) [[1, 1], [1, -1]]`, indexed as
`Hmat row column`. -/
def Hmat : Bool → Bool → Q2
  | false, false => invSqrt2
  | false, true  => invSqrt2
  | true,  false => invSqrt2
  | true,  true  => -invSqrt2

/-- The Pauli X (bit-flip) matrix `[[0, 1], [1, 0]]`. -/
def Xmat : Bool → Bool → Q2
  | false, true  => 1
  | true,  false => 1
  | _,     _     => 0

/-- The Pauli Z (phase-flip) matrix `[[1, 0], [0, -1]]`. -/
def Zmat : Bool → Bool → Q2
  | false, false => 1
  | true,  true  => -1
  | _,     _     => 0

/-- Apply a single-qubit gate with matrix `M` to qubit `q` of a 2-qubit
state. -/
def applyGate1 (M : Bool → Bool → Q2) (q : Fin 2) (ψ : QState) : QState :=
  fun s =>
    M (bitOf q s) false * ψ (setBit q false s) +
      M (bitOf q s) true * ψ (setBit q true s)

/-- Apply a controlled-NOT with control qubit `c` and target qubit `t`:
on basis vectors it flips the target exactly when the control is 1. -/
def applyCX (c t : Fin 2) (ψ : QState) : QState :=
  fun s => if bitOf c s then ψ (setBit t (!(bitOf t s)) s) else ψ s

/-- One circuit instruction, mirroring the notebook's SDK calls on the
circuit object: `h`, `x`, `z`, `cx`, `barrier`, `measure`. -/
inductive Instr
  | h (q : Fin 2)
  | x (q : Fin 2)
  | z (q : Fin 2)
  | cx (c t : Fin 2)
  | barrier
  | measure (q c : Fin 2)
deriving DecidableEq, Repr

/-- Action of one instruction on the quantum state.  `barrier` is a
compilation hint and acts as the identity; `measure` does not change the
pre-measurement state vector — outcomes are read off by `readout`. -/
def applyInstr (ins : Instr) (ψ : QState) : QState :=
  match ins with
  | .h q => applyGate1 Hmat q ψ
  | .x q => applyGate1 Xmat q ψ
  | .z q => applyGate1 Zmat q ψ
  | .cx c t => applyCX c t ψ
  | .barrier => ψ
  | .measure _ _ => ψ

/-- Run a list of instructions left to right, as the notebook appends
them to the circuit. -/
def runInstrs (l : List Instr) (ψ : QState) : QState :=
  match l with
  | [] => ψ
  | ins :: rest => runInstrs rest (applyInstr ins ψ)

/-- Two freshly allocated qubits: the basis state where both qubits are
0, i.e. the state `create_quantum_register` starts from. -/
def initialState : QState := fun s => if s = (false, false) then 1 else 0

/-- Write value `b` to classical bit `c` of the 2-bit classical
register. -/
def writeC (c : Fin 2) (b : Bool) (r : Bool × Bool) : Bool × Bool :=
  if c = 0 then (b, r.2) else (r.1, b)

/-- Fold the `measure` instructions of a circuit over the classical
register: `measure q c` stores the value of qubit `q` (in the basis
vector `s` being read out) into classical bit `c`. -/
def classicalFold : List Instr → Bool × Bool → Bool × Bool → Bool × Bool
  | [], _, r => r
  | Instr.measure q c :: rest, s, r => classicalFold rest s (writeC c (bitOf q s) r)
  | _ :: rest, s, r => classicalFold rest s r

/-- The classical outcome produced when the final state collapses onto
basis vector `s`: the classical register after all `measure`
instructions, starting from `(0, 0)`. -/
def readout (l : List Instr) (s : Bool × Bool) : Bool × Bool :=
  classicalFold l s (false, false)

/-- The subsequence of `measure` instructions of a circuit, in order. -/
def measuresOf (l : List Instr) : List Instr :=
  l.filter fun ins =>
    match ins with
    | .measure _ _ => true
    | _ => false

/-- The four computational basis vectors of the 2-qubit register. -/
def allBasis : List (Bool × Bool) :=
  [(false, false), (false, true), (true, false), (true, true)]

/-- Born rule: the probability of observing classical outcome `out`
after running circuit `l` from state `ψ` — the sum of squared (real)
amplitudes over the basis vectors that read out to `out`. -/
def outcomeProb (l : List Instr) (ψ : QState) (out : Bool × Bool) : Q2 :=
  (allBasis.map fun s =>
    if readout l s = out then runInstrs l ψ s * runInstrs l ψ s else 0).sum

/-- Real inner product of two states (all amplitudes in this development
are real, so no conjugation is needed). -/
def innerProd (ψ φ : QState) : Q2 := (allBasis.map fun s => ψ s * φ s).sum

/-- The four possible 2-bit messages of the protocol. -/
inductive Message
  | m00
  | m01
  | m10
  | m11
deriving DecidableEq, Repr

/-- The bits of a message string "b₀b₁" as the pair `(b₀, b₁)`
(character at index 0 first). -/
def messageBits : Message → Bool × Bool
  | .m00 => (false, false)
  | .m01 => (false, true)
  | .m10 => (true, false)
  | .m11 => (true, true)

/-- The entangling step of the notebook:
`superdense.h(q[0]); superdense.cx(q[0], q[1])`. -/
def entangleInstrs : List Instr := [.h 0, .cx 0 1]

/-- The gate selection of the encoding cell, one branch per message:
nothing for 00; `x(q[0])` for 01; `z(q[0])` for 10 (the three commented
branches); and the live code `z(q[0]); x(q[0])` for 11. -/
def gateSelection : Message → List Instr
  | .m00 => []
  | .m01 => [.x 0]
  | .m10 => [.z 0]
  | .m11 => [.z 0, .x 0]

/-- The decoding-and-measurement cell of the notebook:
`superdense.cx(q[0], q[1]); superdense.h(q[0]);
superdense.measure(q[0], c[0]); superdense.measure(q[1], c[1])`. -/
def decodeInstrs : List Instr := [.cx 0 1, .h 0, .measure 0 0, .measure 1 1]

/-- The complete straight-line circuit the notebook builds for a chosen
message: entangle, the selected encoding gates, the `barrier()` closing
the encoding cell, then decode and measure.  Written out literally, one
straight-line program per message, exactly as running the notebook with
that branch uncommented would append the instructions. -/
def superdenseCircuit : Message → List Instr
  | .m00 => [.h 0, .cx 0 1, .barrier,
             .cx 0 1, .h 0, .measure 0 0, .measure 1 1]
  | .m01 => [.h 0, .cx 0 1, .x 0, .barrier,
             .cx 0 1, .h 0, .measure 0 0, .measure 1 1]
  | .m10 => [.h 0, .cx 0 1, .z 0, .barrier,
             .cx 0 1, .h 0, .measure 0 0, .measure 1 1]
  | .m11 => [.h 0, .cx 0 1, .z 0, .x 0, .barrier,
             .cx 0 1, .h 0, .measure 0 0, .measure 1 1]

/-- The state after the encoding step for message `m`, before decoding:
entangle, then the selected gates. -/
def encodedState (m : Message) : QState :=
  runInstrs (entangleInstrs ++ gateSelection m) initialState

/-- The Bell state `(|00⟩ + |11⟩)/√2` the entangling step is meant to
produce. -/
def bellState : QState :=
  fun s => if s = (false, false) ∨ s = (true, true) then invSqrt2 else 0

/-- A 2-qubit state is maximally entangled when the reduced state of the
first qubit is maximally mixed: for real amplitudes,
`Σ_v ψ(a, v)·ψ(b, v) = (1/2)·δ_{a b}`.  (This also forces the state to
be normalised.) -/
def maximallyEntangled (ψ : QState) : Prop :=
  ∀ a b : Bool,
    ψ (a, false) * ψ (b, false) + ψ (a, true) * ψ (b, true) =
      if a = b then (⟨1/2, 0⟩ : Q2) else 0

/-- Modelled from the spec: the counts mapping of the `Result` that
`Q_program.execute` (external SDK, not part of this repository) returns
under ideal noiseless simulation — each outcome receives `shots` times
its Born probability. -/
def executeCounts (shots : ℕ) (l : List Instr) (out : Bool × Bool) : Q2 :=
  (shots : Q2) * outcomeProb l initialState out

/-- Python tuple comparison `<` on lists of naturals: lexicographic,
with a strict prefix smaller than the longer tuple. -/
def pyTupleLt : List ℕ → List ℕ → Bool
  | [], [] => false
  | [], _ :: _ => true
  | _ :: _, [] => false
  | a :: as, b :: bs =>
      if a < b then true else if a = b then pyTupleLt as bs else false

/-- The message of the exception the notebook raises on an old Python. -/
def pythonVersionError : String := "Please use Python version 3.5 or greater."

/-- The notebook's only guard:
`if sys.version_info < (3,5): raise Exception(...)`.  The running
interpreter's version (its numeric components, e.g. major, minor,
micro) is compared lexicographically against the minimum `(3, 5)`;
below it the script aborts with the exception, otherwise it proceeds. -/
def versionCheck (v : List ℕ) : Except String Unit :=
  if pyTupleLt v [3, 5] then Except.error pythonVersionError else Except.ok ()

set_option maxHeartbeats 3200000 in
/-- Key computation shared below: under ideal noiseless simulation the
full circuit for message `m` puts probability 1 on the outcome whose
bits equal the message's bits, and probability 0 elsewhere. -/
theorem superdense_prob (m : Message) (out : Bool × Bool) :
    outcomeProb (superdenseCircuit m) initialState out
      = if out = messageBits m then 1 else 0 := by
  obtain ⟨a, b⟩ := out
  cases m <;> cases a <;> cases b <;>
    norm_num [superdenseCircuit, outcomeProb, allBasis, readout, classicalFold, writeC,
      runInstrs, applyInstr, applyGate1, applyCX, Hmat, Xmat, Zmat, messageBits,
      bitOf, setBit, initialState, invSqrt2, Q2.eq_iff]

/-- Claim C1: for every message `m` the full circuit (entangle, encode
`m`, decode, measure) under ideal noiseless simulation yields outcome
`m` with probability 1 (and every other outcome with probability 0);
in particular for message 11 with 1024 shots every one of the 1024
counts falls on the single bitstring "11". -/
theorem C1_deterministic_decoding :
    (∀ (m : Message) (out : Bool × Bool),
        outcomeProb (superdenseCircuit m) initialState out
          = if out = messageBits m then 1 else 0)
    ∧ (∀ out : Bool × Bool,
        executeCounts 1024 (superdenseCircuit Message.m11) out
          = if out = (true, true) then (1024 : Q2) else 0) := by
  refine ⟨superdense_prob, fun out => ?_⟩
  rw [executeCounts, superdense_prob]
  obtain ⟨a, b⟩ := out
  cases a <;> cases b <;> norm_num [messageBits, Q2.eq_iff]

/-- Claim C2, counterexample: in the notebook the encoding for message
11 is `z(q[0])` followed by `x(q[0])` — phase-flip then bit-flip — not
bit-flip followed by phase-flip (X then Z) as the claim states. -/
theorem C2_counterexample_encode_order_m11 :
    gateSelection Message.m11 = [Instr.z 0, Instr.x 0]
    ∧ gateSelection Message.m11 ≠ [Instr.x 0, Instr.z 0] :=
  ⟨rfl, by decide⟩

/-- Claim C2 as amended: the gate selection is a total deterministic
pure function from the 2-bit message to the operation sequence applied
to the sender's qubit `q[0]` — 00 maps to the identity (no operations),
01 to bit-flip (X), 10 to phase-flip (Z), and 11 to phase-flip followed
by bit-flip (Z then X, the order the code applies); exactly one of the
four branches forms the encoding segment of the circuit. -/
theorem C2_gate_selection_mapping :
    (∀ m : Message, superdenseCircuit m
        = entangleInstrs ++ gateSelection m ++ [Instr.barrier] ++ decodeInstrs)
    ∧ gateSelection Message.m00 = []
    ∧ gateSelection Message.m01 = [Instr.x 0]
    ∧ gateSelection Message.m10 = [Instr.z 0]
    ∧ gateSelection Message.m11 = [Instr.z 0, Instr.x 0] :=
  ⟨fun m => by cases m <;> rfl, rfl, rfl, rfl, rfl⟩

/-- Claim C3: starting from two fresh qubits in the zero state, the
entangling step applies a Hadamard to the first qubit and then a
controlled-NOT from the first to the second, and afterwards the pair is
in the maximally entangled Bell state `(|00⟩ + |11⟩)/√2` (the step is a
total function: it has no failure modes). -/
theorem C3_entangle_bell_maximally_entangled :
    entangleInstrs = [Instr.h 0, Instr.cx 0 1]
    ∧ runInstrs entangleInstrs initialState = bellState
    ∧ maximallyEntangled (runInstrs entangleInstrs initialState) := by
  refine ⟨rfl, ?_, ?_⟩
  · funext s
    obtain ⟨a, b⟩ := s
    cases a <;> cases b <;>
      norm_num [entangleInstrs, runInstrs, applyInstr, applyGate1, applyCX, Hmat,
        bitOf, setBit, initialState, bellState, invSqrt2, Q2.eq_iff]
  · unfold maximallyEntangled
    intro a b
    cases a <;> cases b <;>
      norm_num [entangleInstrs, runInstrs, applyInstr, applyGate1, applyCX, Hmat,
        bitOf, setBit, initialState, invSqrt2, Q2.eq_iff]

/-- Claim C4: the decode-and-measure step is the fixed sequence
controlled-NOT from `q[0]` to `q[1]`, Hadamard on `q[0]`, then the two
measurements — and for every message the circuit ends in exactly this
sequence, so it does not depend on which message was encoded. -/
theorem C4_decode_fixed_sequence :
    decodeInstrs = [Instr.cx 0 1, Instr.h 0, Instr.measure 0 0, Instr.measure 1 1]
    ∧ ∀ m : Message,
        (superdenseCircuit m).drop ((superdenseCircuit m).length - 4) = decodeInstrs :=
  ⟨rfl, fun m => by cases m <;> rfl⟩

/-- Claim C5: encoding "00" is equivalent to applying no operation: the
decode step applied directly to the raw entangled Bell state yields
outcome "00" with probability 1, exactly as the full circuit for
message 00 (whose encoding segment is empty) does. -/
theorem C5_encode_00_noop :
    (∀ out : Bool × Bool,
        outcomeProb decodeInstrs bellState out
          = if out = (false, false) then 1 else 0)
    ∧ (∀ out : Bool × Bool,
        outcomeProb (superdenseCircuit Message.m00) initialState out
          = if out = (false, false) then 1 else 0) := by
  constructor
  · rintro ⟨a, b⟩
    cases a <;> cases b <;>
      norm_num [decodeInstrs, outcomeProb, allBasis, readout, classicalFold, writeC,
        runInstrs, applyInstr, applyGate1, applyCX, Hmat,
        bitOf, setBit, bellState, invSqrt2, Q2.eq_iff]
  · intro out
    simpa [messageBits] using superdense_prob Message.m00 out

set_option maxHeartbeats 1600000 in
/-- Claim C6: the four post-encoding states (entangle then the selected
gates, before decoding) are pairwise orthogonal: for distinct messages
their inner product is zero. -/
theorem C6_encoded_states_pairwise_orthogonal
    (m1 m2 : Message) (h : m1 ≠ m2) :
    innerProd (encodedState m1) (encodedState m2) = 0 := by
  cases m1 <;> cases m2 <;>
    first
    | exact absurd rfl h
    | norm_num [innerProd, encodedState, entangleInstrs, gateSelection, allBasis,
        runInstrs, applyInstr, applyGate1, applyCX, Hmat, Xmat, Zmat,
        bitOf, setBit, initialState, invSqrt2, Q2.eq_iff]

/-- Concrete instance of claim C6 at the distinct pair (00, 11). -/
theorem C6_orthogonality_witness :
    innerProd (encodedState Message.m00) (encodedState Message.m11) = 0 :=
  C6_encoded_states_pairwise_orthogonal Message.m00 Message.m11 (by decide)

/-- Claim C7: the script raises its fatal exception exactly when the
host interpreter's version `(major, minor, micro)` lexicographically
predates the minimum `(3, 5)`, and proceeds without the error at or
above 3.5. -/
theorem C7_python_version_guard (ma mi mc : ℕ) :
    (versionCheck [ma, mi, mc] = Except.error pythonVersionError
        ↔ (ma < 3 ∨ (ma = 3 ∧ mi < 5)))
    ∧ (versionCheck [ma, mi, mc] = Except.ok ()
        ↔ ¬(ma < 3 ∨ (ma = 3 ∧ mi < 5))) := by
  have hlt : (pyTupleLt [ma, mi, mc] [3, 5] = true)
      ↔ (ma < 3 ∨ (ma = 3 ∧ mi < 5)) := by
    simp only [pyTupleLt]
    split_ifs <;> simp_all
  by_cases hv : pyTupleLt [ma, mi, mc] [3, 5] = true <;>
    constructor <;> simp_all [versionCheck]

/-- Claim C8: for every message and shot count, the `Result` counts
mapping (modelled from the spec as shots times the ideal outcome
probabilities) is indexed by the 2-bit outcome strings, and its values
are non-negative integers — each count is 0 or `shots` — summing
exactly to the configured shot count. -/
theorem C8_result_counts_partition_shots (m : Message) (shots : ℕ) :
    ((allBasis.map (executeCounts shots (superdenseCircuit m))).sum = (shots : Q2))
    ∧ (∀ out : Bool × Bool,
        executeCounts shots (superdenseCircuit m) out = 0
          ∨ executeCounts shots (superdenseCircuit m) out = (shots : Q2)) := by
  constructor
  · cases m <;>
      norm_num [executeCounts, superdense_prob, allBasis, messageBits, Q2.eq_iff]
  · intro out
    rw [executeCounts, superdense_prob]
    by_cases h : out = messageBits m
    · rw [if_pos h]
      right
      norm_num [Q2.eq_iff]
    · rw [if_neg h]
      left
      norm_num [Q2.eq_iff]

/-- Claim C9: the measurement step maps `q[0]` to `c[0]` and `q[1]` to
`c[1]` for every message, so in each outcome the classical bit at index
0 is the sender's (`q[0]`) measurement and the bit at index 1 is the
receiver's (`q[1]`). -/
theorem C9_measurement_bit_ordering (m : Message) (s : Bool × Bool) :
    measuresOf (superdenseCircuit m) = [Instr.measure 0 0, Instr.measure 1 1]
    ∧ readout (superdenseCircuit m) s = (bitOf 0 s, bitOf 1 s) := by
  cases m <;> exact ⟨rfl, rfl⟩

set_option maxHeartbeats 1600000 in
/-- Claim C10: for message 11 the code's encoding order (Z then X) and
the prose's order (X then Z) produce post-encoding states differing
only by the global phase −1, and after the fixed decode step they give
exactly the same outcome distribution. -/
theorem C10_encode_orders_global_phase :
    (∀ s : Bool × Bool,
        runInstrs (entangleInstrs ++ [Instr.z 0, Instr.x 0]) initialState s
          = - runInstrs (entangleInstrs ++ [Instr.x 0, Instr.z 0]) initialState s)
    ∧ (∀ out : Bool × Bool,
        outcomeProb (entangleInstrs ++ [Instr.z 0, Instr.x 0] ++ decodeInstrs)
            initialState out
          = outcomeProb (entangleInstrs ++ [Instr.x 0, Instr.z 0] ++ decodeInstrs)
            initialState out) := by
  constructor
  · rintro ⟨a, b⟩
    cases a <;> cases b <;>
      norm_num [entangleInstrs, decodeInstrs, runInstrs, applyInstr, applyGate1,
        applyCX, Hmat, Xmat, Zmat, bitOf, setBit, initialState, invSqrt2, Q2.eq_iff]
  · rintro ⟨a, b⟩
    cases a <;> cases b <;>
      norm_num [entangleInstrs, decodeInstrs, outcomeProb, allBasis, readout,
        classicalFold, writeC, runInstrs, applyInstr, applyGate1,
        applyCX, Hmat, Xmat, Zmat, bitOf, setBit, initialState, invSqrt2, Q2.eq_iff]
